import Mathlib

/-!
Verification development for the Bedrock managed-prompts MCP server
(`bedrock_prompts_mcp_server.py`).  The Python source is shallowly embedded:
JSON-like Python values become the inductive `PyVal`, fallible Python
expressions (indexing, attribute access) become `Except String` computations
where the error value models the raised exception, and the concurrency of the
batch orchestrator is modelled by an explicit per-task outcome list in
submission order (the source collects `future.result` in submission order, so
this captures every observable interleaving).
-/

namespace BedrockSpec

/-- Embedding of the JSON-like Python values the server manipulates
(`None`, booleans, ints, strings, lists, dicts).  Dicts are association
lists; the source never relies on key order. -/
inductive PyVal where
  | none
  | bool (b : Bool)
  | int (n : Int)
  | str (s : String)
  | list (xs : List PyVal)
  | dict (kvs : List (String × PyVal))

/-- A Python dict with string keys, as used for parsed JSON response bodies,
prompt data and variants. -/
abbrev PyDict := List (String × PyVal)

mutual

/-- Python `==` on embedded values (structural equality).  Dict comparison is
order-sensitive here; the source only ever compares scalars (variant names,
stream event type tags), where this agrees with Python. -/
def pyBeq : PyVal → PyVal → Bool
  | PyVal.none, PyVal.none => true
  | PyVal.bool x, PyVal.bool y => x == y
  | PyVal.int x, PyVal.int y => x == y
  | PyVal.str x, PyVal.str y => x == y
  | PyVal.list xs, PyVal.list ys => pyBeqList xs ys
  | PyVal.dict xs, PyVal.dict ys => pyBeqDict xs ys
  | _, _ => false

/-- Elementwise equality of embedded Python lists. -/
def pyBeqList : List PyVal → List PyVal → Bool
  | [], [] => true
  | x :: xs, y :: ys => pyBeq x y && pyBeqList xs ys
  | _, _ => false

/-- Entrywise equality of embedded Python dicts. -/
def pyBeqDict : List (String × PyVal) → List (String × PyVal) → Bool
  | [], [] => true
  | (k1, v1) :: xs, (k2, v2) :: ys => k1 == k2 && pyBeq v1 v2 && pyBeqDict xs ys
  | _, _ => false

end

/-- Python truthiness (`if x:`): `None`, `0`, `""`, `[]` and an empty dict are
falsy, everything else embedded here is truthy. -/
def pyTruthy : PyVal → Bool
  | PyVal.none => false
  | PyVal.bool b => b
  | PyVal.int n => n != 0
  | PyVal.str s => !s.isEmpty
  | PyVal.list xs => !xs.isEmpty
  | PyVal.dict kvs => !kvs.isEmpty

/-- Python `d.get(key, default)` on a dict known to be a dict. -/
def pyDictGetD (kvs : PyDict) (k : String) (dflt : PyVal) : PyVal :=
  match kvs.find? (fun kv => kv.1 == k) with
  | some kv => kv.2
  | Option.none => dflt

/-- Python `obj.get(key, default)` on an arbitrary value: succeeds on dicts,
raises `AttributeError` on anything else. -/
def pyGet (obj : PyVal) (k : String) (dflt : PyVal) : Except String PyVal :=
  match obj with
  | PyVal.dict kvs => Except.ok (pyDictGetD kvs k dflt)
  | _ => Except.error "AttributeError"

/-- Python `obj[0]`: first element of a list or one-character string of a
nonempty string, `IndexError` when empty, `TypeError` on non-sequences. -/
def pyIndexZero : PyVal → Except String PyVal
  | PyVal.list [] => Except.error "IndexError"
  | PyVal.list (x :: _) => Except.ok x
  | PyVal.str s =>
    match s.data with
    | [] => Except.error "IndexError"
    | c :: _ => Except.ok (PyVal.str (String.mk [c]))
  | _ => Except.error "TypeError"

/-- Coerce an embedded value to a Lean string, raising (with the given
exception name) when the Python value is not a `str` — models the places
where the source calls a `str` method on, or concatenates onto a string, a
value of the wrong runtime type. -/
def asStr (err : String) : PyVal → Except String String
  | PyVal.str s => Except.ok s
  | _ => Except.error err

/- ===== Model family classifier (`get_model_type`, source lines 63-80) ===== -/

/-- Python `needle in hay` on character lists: some suffix of `hay` starts
with `needle`. -/
def containsSub (needle : List Char) : List Char → Bool
  | [] => needle.isEmpty
  | c :: rest => needle.isPrefixOf (c :: rest) || containsSub needle rest

/-- Python `needle in hay` on strings. -/
def strContains (hay needle : String) : Bool := containsSub needle.data hay.data

/-- Python `str.lower`, characterwise (`Char.toLower` lowers exactly the
ASCII range, which covers the model identifiers and markers involved). -/
def pyLower (s : String) : String := String.mk (s.data.map Char.toLower)

/-- Embedding of `get_model_type`: lower-case the model id (the source uses
`str.lower`; the identifiers involved are ASCII, which `Char.toLower`
models exactly) and test the family markers in the source's fixed order. -/
def get_model_type (model_id : String) : String :=
  let m := pyLower model_id
  if strContains m "claude" || strContains m "anthropic" then "claude"
  else if strContains m "titan" then "titan"
  else if strContains m "llama" || strContains m "meta" then "llama"
  else if strContains m "mistral" then "mistral"
  else if strContains m "cohere" then "cohere"
  else if strContains m "ai21" || strContains m "jurassic" then "ai21"
  else "unknown"

/-- The fixed ordered marker table of the classifier, families in priority
order, each with its case-insensitive substring markers. -/
def familyMarkers : List (String × List String) :=
  [("claude", ["claude", "anthropic"]),
   ("titan", ["titan"]),
   ("llama", ["llama", "meta"]),
   ("mistral", ["mistral"]),
   ("cohere", ["cohere"]),
   ("ai21", ["ai21", "jurassic"])]

/-- First family in the given priority list one of whose markers occurs in
the (already lower-cased) identifier; `"unknown"` when none matches. -/
def firstMatchingFamily (m : String) : List (String × List String) → String
  | [] => "unknown"
  | fm :: rest =>
    if fm.2.any (fun mk => strContains m mk) then fm.1 else firstMatchingFamily m rest

/-- Modelled from the spec's words (spec 4.1): case-insensitive substring
match against the fixed ordered marker table; the first matching family in
priority order wins; no match yields `"unknown"`. -/
def classify_spec (model_id : String) : String :=
  firstMatchingFamily (pyLower model_id) familyMarkers

/- ===== Template renderer (source lines 358-363 / 474-478) ===== -/

/-- Python `str.replace` on character lists, with explicit fuel so that the
definition is structural (kernel-computable).  Scans left to right; at a
match it emits `val` and resumes after the matched occurrence, never
rescanning the emitted text within the same call; otherwise it keeps one
character.  Each step consumes at least one character, so `fuel = s.length`
computes the exact Python result (`pyReplace` below instantiates it so).
The `fuel = 0` and empty-needle corner cases are unreachable from `pyReplace`
as used by the renderer: placeholders are never the empty string. -/
def replaceFuel (needle val : List Char) : Nat → List Char → List Char
  | _, [] => []
  | 0, s => s
  | fuel + 1, c :: rest =>
    if needle.isPrefixOf (c :: rest) && !needle.isEmpty then
      val ++ replaceFuel needle val fuel (List.drop needle.length (c :: rest))
    else
      c :: replaceFuel needle val fuel rest

/-- Python `s.replace(needle, val)` on strings (for the renderer's nonempty
placeholder needles). -/
def pyReplace (s needle val : String) : String :=
  String.mk (replaceFuel needle.data val.data s.data.length s.data)

/-- The double-brace placeholder the source builds with
`f"{{{{{var_name}}}}}"`. -/
def placeholderDouble (name : String) : String := "\x7b\x7b" ++ name ++ "\x7d\x7d"

/-- The single-brace placeholder the source builds with `f"{{{var_name}}}"`. -/
def placeholderSingle (name : String) : String := "\x7b" ++ name ++ "\x7d"

/-- Embedding of the substitution loop of `invoke_prompt` (also duplicated
verbatim in `invoke_prompt_stream`): for each variable in mapping order,
replace all occurrences of the double-brace form, then of the single-brace
form, each pass running over the whole accumulated string. -/
def fillTemplate (template : String) (vars : List (String × String)) : String :=
  vars.foldl
    (fun acc kv =>
      pyReplace (pyReplace acc (placeholderDouble kv.1) kv.2) (placeholderSingle kv.1) kv.2)
    template

/-- Split on a needle, with the same fuel discipline as `replaceFuel`: the
pieces are the segments of the input between the non-overlapping, leftmost
occurrences of the needle that a single `str.replace` call locates. -/
def splitFuel (needle : List Char) : Nat → List Char → List (List Char)
  | _, [] => [[]]
  | 0, s => [s]
  | fuel + 1, c :: rest =>
    if needle.isPrefixOf (c :: rest) && !needle.isEmpty then
      [] :: splitFuel needle fuel (List.drop needle.length (c :: rest))
    else
      match splitFuel needle fuel rest with
      | [] => [[c]]
      | p :: ps => (c :: p) :: ps

/-- Interleave a separator between pieces (no scanning of the separator). -/
def joinWith (sep : List Char) : List (List Char) → List Char
  | [] => []
  | [p] => p
  | p :: ps => p ++ sep ++ joinWith sep ps

/- ===== Response parsers (source lines 188-266) ===== -/

/-- Embedding of `parse_response_claude`:
`response_body.get("content", [{}])[0].get("text", "")`. -/
def parse_response_claude (body : PyDict) : Except String PyVal := do
  let content := pyDictGetD body "content" (PyVal.list [PyVal.dict []])
  let item ← pyIndexZero content
  pyGet item "text" (PyVal.str "")

/-- Embedding of `parse_response_titan`: defaulted fetch of `results`,
truthiness guard, then `results[0].get("outputText", "")`. -/
def parse_response_titan (body : PyDict) : Except String PyVal := do
  let results := pyDictGetD body "results" (PyVal.list [PyVal.dict []])
  if pyTruthy results then do
    let item ← pyIndexZero results
    pyGet item "outputText" (PyVal.str "")
  else
    pure (PyVal.str "")

/-- Embedding of `parse_response_llama`:
`response_body.get("generation", "")`. -/
def parse_response_llama (body : PyDict) : Except String PyVal :=
  Except.ok (pyDictGetD body "generation" (PyVal.str ""))

/-- Embedding of `parse_response_mistral`: defaulted fetch of `outputs`,
truthiness guard, then `outputs[0].get("text", "")`. -/
def parse_response_mistral (body : PyDict) : Except String PyVal := do
  let outputs := pyDictGetD body "outputs" (PyVal.list [PyVal.dict []])
  if pyTruthy outputs then do
    let item ← pyIndexZero outputs
    pyGet item "text" (PyVal.str "")
  else
    pure (PyVal.str "")

/-- Embedding of `parse_response_cohere`: defaulted fetch of `generations`,
truthiness guard, then `generations[0].get("text", "")`. -/
def parse_response_cohere (body : PyDict) : Except String PyVal := do
  let generations := pyDictGetD body "generations" (PyVal.list [PyVal.dict []])
  if pyTruthy generations then do
    let item ← pyIndexZero generations
    pyGet item "text" (PyVal.str "")
  else
    pure (PyVal.str "")

/-- Embedding of `parse_response_ai21`: defaulted fetch of `completions`,
truthiness guard, then `completions[0].get("data", {}).get("text", "")`. -/
def parse_response_ai21 (body : PyDict) : Except String PyVal := do
  let completions := pyDictGetD body "completions" (PyVal.list [PyVal.dict []])
  if pyTruthy completions then do
    let item ← pyIndexZero completions
    let data ← pyGet item "data" (PyVal.dict [])
    pyGet data "text" (PyVal.str "")
  else
    pure (PyVal.str "")

/-- Embedding of `parse_model_response`: dispatch on the classified family,
with the claude parser as the fallback for unknown families (the source's
`parsers.get(model_type, parse_response_claude)`). -/
def parse_model_response (model_id : String) (body : PyDict) : Except String PyVal :=
  let t := get_model_type model_id
  if t == "claude" then parse_response_claude body
  else if t == "titan" then parse_response_titan body
  else if t == "llama" then parse_response_llama body
  else if t == "mistral" then parse_response_mistral body
  else if t == "cohere" then parse_response_cohere body
  else if t == "ai21" then parse_response_ai21 body
  else parse_response_claude body

/- ===== Variant selection and the single-call invoker (source lines 312-412,
identically duplicated for the resolution part in lines 436-491) ===== -/

/-- The name-matching test of the selection loop: `v.get("name") ==
default_variant_name`, where `default_variant_name =
prompt_data.get("defaultVariant", "variantOne")`. -/
def variantNameMatches (prompt_data : PyDict) (v : PyDict) : Bool :=
  pyBeq (pyDictGetD v "name" PyVal.none)
    (pyDictGetD prompt_data "defaultVariant" (PyVal.str "variantOne"))

/-- Embedding of the selection loop plus fallback of `invoke_prompt` /
`invoke_prompt_stream`.  The loop takes the first variant whose name equals
the declared default; the fallback `if not variant and variants:` then
replaces the selection with the first variant whenever the loop selected
nothing — no name match — or selected a falsy variant: an empty dict, which
the loop can match when the declared default is `None` (an empty dict's
`.get("name")` is `None`).  So the selected variant is the first
name-matched variant if it is truthy, else the first variant of a nonempty
sequence, else nothing. -/
def selectVariant (prompt_data : PyDict) (variants : List PyDict) : Option PyDict :=
  match variants.find? (variantNameMatches prompt_data) with
  | some v => if v.isEmpty then variants.head? else some v
  | Option.none => variants.head?

/-- Embedding of the selection result check `if not variant:` — Python
truthiness, so selection fails both when nothing was selected and when the
selected variant is an empty dict. -/
def variantOrError (prompt_data : PyDict) (variants : List PyDict) : Except String PyDict :=
  match selectVariant prompt_data variants with
  | some v => if v.isEmpty then Except.error "No variant found in prompt" else Except.ok v
  | Option.none => Except.error "No variant found in prompt"

/-- The variant list `prompt_data.get("variants", [])` of the fetched prompt
data, as a list of dicts.  The model restricts the `variants` value to a
list of dicts: any other shape raises inside the selection loop in Python
and, like every exception there, ends in the same failure envelope. -/
def getVariants (pd : PyDict) : List PyDict :=
  match pyDictGetD pd "variants" (PyVal.list []) with
  | PyVal.list vs =>
    vs.filterMap (fun v =>
      match v with
      | PyVal.dict kvs => some kvs
      | _ => Option.none)
  | _ => []

/-- Template text extraction of the invoker:
`variant.get("templateConfiguration", {}).get("text", {}).get("text", "")`. -/
def extractTemplateText (variant : PyDict) : Except String PyVal := do
  let t1 ← pyGet (pyDictGetD variant "templateConfiguration" (PyVal.dict [])) "text" (PyVal.dict [])
  pyGet t1 "text" (PyVal.str "")

/-- The uniform result envelope of `invoke_prompt`: the success flag, the
parsed completion and filled template on success, the error message on
failure (the source's `{success, completion, filled_template, ...}` /
`{success: False, error}` dictionaries, restricted to the fields the claims
mention). -/
structure InvokeResult where
  success : Bool
  completion : Option PyVal
  filled_template : Option String
  error : Option String

/-- Embedding of `invoke_prompt`.  `cat` is the catalog collaborator's
outcome (`get_prompt_details`: a prompt-data dict, or the failure envelope's
message — on failure `invoke_prompt` returns that envelope unchanged).
`runtime` is the inference endpoint's outcome (a parsed response body, or a
raised `ClientError` message).  Every exception raised along the way is
caught by the function's trailing handlers and becomes the uniform
failure envelope, which the `Except` pipeline models. -/
def invoke_prompt_model (cat : Except String PyDict) (runtime : Except String PyDict)
    (vars : List (String × String)) : InvokeResult :=
  match cat with
  | Except.error e => InvokeResult.mk false Option.none Option.none (some e)
  | Except.ok pd =>
    let pipeline : Except String (String × PyVal) := do
      let variant ← variantOrError pd (getVariants pd)
      let ttextV ← extractTemplateText variant
      if pyTruthy ttextV then do
        let ttext ← asStr "AttributeError" ttextV
        let filled := fillTemplate ttext vars
        let mid ← asStr "AttributeError" (pyDictGetD variant "modelId" (PyVal.str ""))
        let body ← runtime
        let completion ← parse_model_response mid body
        pure (filled, completion)
      else
        Except.error "No template text found in prompt"
    match pipeline with
    | Except.ok fc => InvokeResult.mk true (some fc.2) (some fc.1) Option.none
    | Except.error e => InvokeResult.mk false Option.none Option.none (some e)

/- ===== Streaming invoker event loop (source lines 499-548) ===== -/

mutual

/-- Python `str(obj)` on an embedded JSON value, used by the streaming
loop's generic fallback branch.  The exact rendering is irrelevant to every
claim; the structure (total, never raises) is what matters. -/
def pyStr : PyVal → String
  | PyVal.none => "None"
  | PyVal.bool true => "True"
  | PyVal.bool false => "False"
  | PyVal.int n => toString n
  | PyVal.str s => s
  | PyVal.list xs => "[" ++ pyStrList xs ++ "]"
  | PyVal.dict kvs => "\x7b" ++ pyStrDict kvs ++ "\x7d"

/-- Comma-joined rendering of list elements for `pyStr`. -/
def pyStrList : List PyVal → String
  | [] => ""
  | [x] => pyStr x
  | x :: xs => pyStr x ++ ", " ++ pyStrList xs

/-- Comma-joined rendering of dict entries for `pyStr`. -/
def pyStrDict : List (String × PyVal) → String
  | [] => ""
  | [(k, v)] => k ++ ": " ++ pyStr v
  | (k, v) :: kvs => k ++ ": " ++ pyStr v ++ ", " ++ pyStrDict kvs

end

/-- One event of the response stream, as the loop observes it: either an
event without a truthy `chunk` key (skipped by `if chunk:`), or a chunk
whose byte payload either decodes (`json.loads`) to an embedded value or
fails to decode — `Except.error` models the raised decode error. -/
inductive StreamEvent where
  | noChunk
  | chunk (decoded : Except String PyVal)

/-- The claude branch of the streaming loop: events typed
`content_block_delta` contribute `delta.text` when truthy; other events
contribute nothing; malformed shapes raise (`.get` on a non-dict,
concatenating a non-string). -/
def chunkContribClaude (obj : PyVal) : Except String (Option String) := do
  let ty ← pyGet obj "type" PyVal.none
  if pyBeq ty (PyVal.str "content_block_delta") then do
    let delta ← pyGet obj "delta" (PyVal.dict [])
    let t ← pyGet delta "text" (PyVal.str "")
    if pyTruthy t then do
      let s ← asStr "TypeError" t
      pure (some s)
    else
      pure Option.none
  else
    pure Option.none

/-- The titan branch of the streaming loop: the `outputText` field
contributes when truthy. -/
def chunkContribTitan (obj : PyVal) : Except String (Option String) := do
  let t ← pyGet obj "outputText" (PyVal.str "")
  if pyTruthy t then do
    let s ← asStr "TypeError" t
    pure (some s)
  else
    pure Option.none

/-- Processing of one stream event for the given model type: skipped,
contributing an optional text fragment, or raising (in particular the
`json.loads` failure of a malformed chunk propagates here — there is no
per-event handler in the source). -/
def eventStep (mt : String) (e : StreamEvent) : Except String (Option String) :=
  match e with
  | StreamEvent.noChunk => Except.ok Option.none
  | StreamEvent.chunk (Except.error m) => Except.error m
  | StreamEvent.chunk (Except.ok obj) =>
    if mt == "claude" then chunkContribClaude obj
    else if mt == "titan" then chunkContribTitan obj
    else Except.ok (some (pyStr obj))

/-- The event loop of `invoke_prompt_stream`: accumulate `full_text` and the
`chunks` list in arrival order; the first exception raised by any event
aborts the whole loop (and is caught only by the function's outermost
handler). -/
def processStream (mt : String) : List StreamEvent → Except String (String × List String)
  | [] => Except.ok ("", [])
  | e :: rest =>
    match eventStep mt e with
    | Except.error m => Except.error m
    | Except.ok c =>
      match processStream mt rest with
      | Except.error m => Except.error m
      | Except.ok pr =>
        match c with
        | some s => Except.ok (s ++ pr.1, s :: pr.2)
        | Option.none => Except.ok pr

/-- The result envelope of `invoke_prompt_stream`, restricted to the fields
the claims mention. -/
structure StreamResult where
  success : Bool
  completion : Option String
  chunks : Option (List String)
  chunk_count : Option Nat
  error : Option String

/-- Embedding of the post-request stage of `invoke_prompt_stream` (the
resolution stage is the one shared with `invoke_prompt`): consume the event
stream for the variant's model id; a raised exception anywhere in the loop
is caught by the trailing handlers and becomes the failure envelope,
discarding all accumulated text. -/
def invoke_prompt_stream_events (model_id : String) (events : List StreamEvent) : StreamResult :=
  match processStream (get_model_type model_id) events with
  | Except.ok pr => StreamResult.mk true (some pr.1) (some pr.2) (some pr.2.length) Option.none
  | Except.error e => StreamResult.mk false Option.none Option.none Option.none (some e)

/-- A well-formed claude incremental content delta event carrying the given
text fragment. -/
def claudeDelta (s : String) : StreamEvent :=
  StreamEvent.chunk (Except.ok (PyVal.dict
    [("type", PyVal.str "content_block_delta"),
     ("delta", PyVal.dict [("text", PyVal.str s)])]))

/- ===== Batch orchestrator (source lines 551-621) ===== -/

/-- What collecting one submitted future observes (source lines 596-607):
either `future.result(timeout=120)` returns the entry `invoke_single` built
(which always carries its task's index, and whose success flag is the
invocation result's), or it raises — per-task timeout — and the handler
appends an error entry built on the spot. -/
inductive FutureOutcome where
  | completed (success : Bool)
  | raised
deriving DecidableEq

/-- One entry of the report's `results`/`errors` lists, restricted to the
fields the claims mention.  `index` is optional because the entry built in
the timeout handler (`{"success": False, "error": f"Future execution error:
…"}`) carries no index. -/
structure BatchEntry where
  index : Option Nat
  success : Bool
deriving DecidableEq

/-- The collection loop of `batch_invoke_prompt`: iterate the futures in
submission order starting at index `i0`, appending each completed entry to
`results` or `errors` by its success flag, and appending an index-less
error entry for each future whose `result` call raises. -/
def collectResults : Nat → List FutureOutcome → List BatchEntry × List BatchEntry
  | _, [] => ([], [])
  | i, FutureOutcome.completed true :: rest =>
    let p := collectResults (i + 1) rest
    (BatchEntry.mk (some i) true :: p.1, p.2)
  | i, FutureOutcome.completed false :: rest =>
    let p := collectResults (i + 1) rest
    (p.1, BatchEntry.mk (some i) false :: p.2)
  | i, FutureOutcome.raised :: rest =>
    let p := collectResults (i + 1) rest
    (p.1, BatchEntry.mk Option.none false :: p.2)

/-- Whether a future's `result` call returned (as opposed to raising). -/
def isCompleted : FutureOutcome → Bool
  | FutureOutcome.completed _ => true
  | FutureOutcome.raised => false

/-- Number of entries of a report list carrying the given index. -/
def countIdx (i : Nat) (l : List BatchEntry) : Nat :=
  (l.filter (fun e => e.index == some i)).length

/-- The indices carried by a report list's entries, in list order. -/
def entryIndices (l : List BatchEntry) : List Nat :=
  l.filterMap (fun e => e.index)

/-- Whether the task at position `k` completed (its `future.result` call
returned rather than raised). -/
def completedAt (outs : List FutureOutcome) (k : Nat) : Bool :=
  match List.drop k outs with
  | FutureOutcome.completed _ :: _ => true
  | _ => false

/-- The report dictionary `batch_invoke_prompt` returns on its normal path,
restricted to the fields the claims mention.  The wholesale `except` branch
of the orchestrator is unreachable in the embedding: the orchestration
scaffolding itself (list enumeration, the pool, the collection loop) raises
no exception — `invoke_single` catches everything and the per-future
handler catches `result`'s failures. -/
structure BatchReport where
  success : Bool
  total_invocations : Nat
  successful : Nat
  failed : Nat
  results : List BatchEntry
  errors : List BatchEntry
deriving DecidableEq

/-- One submitted task of the batch: its own inference-endpoint outcome and
variable set, plus whether its `future.result(timeout=120)` call times out. -/
structure BatchTask where
  runtime : Except String PyDict
  varSet : List (String × String)
  timesOut : Bool

/-- What collecting a task's future observes: a timeout raises; otherwise
the future holds `invoke_single`'s entry whose success flag is
`invoke_prompt`'s (every task shares the batch's prompt id, hence the
shared catalog outcome `cat`). -/
def taskOutcome (cat : Except String PyDict) (t : BatchTask) : FutureOutcome :=
  if t.timesOut then FutureOutcome.raised
  else FutureOutcome.completed (invoke_prompt_model cat t.runtime t.varSet).success

/-- Embedding of `batch_invoke_prompt`: run every task against the shared
catalog outcome, collect in submission order, and return the
`{"success": True, …}` report. -/
def batch_invoke_prompt_model (cat : Except String PyDict) (tasks : List BatchTask) : BatchReport :=
  let p := collectResults 0 (tasks.map (taskOutcome cat))
  BatchReport.mk true tasks.length p.1.length p.2.length p.1 p.2

/- ===== Tool dispatch for the listing operation (source lines 269-288 and
773-826) ===== -/

/-- The function names bound at module level in the source file.  Notably
absent: `list_prompts` — the lines 270-288 that implement catalog listing
sit, without a `def` header, as unreachable code after the `return` of
`parse_model_response`, so the name is never defined. -/
def module_function_names : List String :=
  ["init_aws_clients", "get_model_type", "build_request_body_claude",
   "build_request_body_titan", "build_request_body_llama", "build_request_body_mistral",
   "build_request_body_cohere", "build_request_body_ai21", "parse_response_claude",
   "parse_response_titan", "parse_response_llama", "parse_response_mistral",
   "parse_response_cohere", "parse_response_ai21", "build_request_body",
   "parse_model_response", "get_prompt_details", "invoke_prompt", "list_prompt_versions",
   "invoke_prompt_stream", "batch_invoke_prompt", "list_tools", "call_tool", "main"]

/-- The uniform `{success, error}` envelope of the tool boundary. -/
structure Envelope where
  success : Bool
  error : Option String
deriving DecidableEq

/-- The envelope the catalog-listing body at source lines 270-288 would
produce, had its `def list_prompts(...)` header not been lost: the success
envelope with the response's `promptSummaries` and `nextToken` on catalog
success, the failure envelope on a caught catalog error. -/
structure ListPromptsEnvelope where
  success : Bool
  prompts : Option PyVal
  nextToken : Option PyVal
  error : Option String

/-- The dead catalog-listing body (source lines 270-288), modelled as the
function it was evidently meant to be. -/
def list_prompts_dead_body (catalog : Except String PyDict) : ListPromptsEnvelope :=
  match catalog with
  | Except.ok resp =>
    ListPromptsEnvelope.mk true (some (pyDictGetD resp "promptSummaries" (PyVal.list [])))
      (some (pyDictGetD resp "nextToken" PyVal.none)) Option.none
  | Except.error e => ListPromptsEnvelope.mk false Option.none Option.none (some e)

/-- Embedding of `call_tool`'s `list_bedrock_prompts` branch: it evaluates
the name `list_prompts`; since that name is not bound at module level, the
evaluation raises `NameError`, which the handler at lines 823-826 converts
into the failure envelope — the catalog collaborator is never consulted. -/
def call_tool_list_bedrock_prompts (catalog : Except String PyDict) : Envelope :=
  if module_function_names.contains "list_prompts" then
    match catalog with
    | Except.ok _ => Envelope.mk true Option.none
    | Except.error e => Envelope.mk false (some e)
  else
    Envelope.mk false (some "name list_prompts is not defined")

/- ================== Theorems ================== -/

/-- A `str.replace` call whose needle does not occur anywhere in the input
leaves the input unchanged (any fuel). -/
theorem replaceFuel_of_not_contains (needle val : List Char) :
    ∀ (fuel : Nat) (s : List Char), containsSub needle s = false →
      replaceFuel needle val fuel s = s := by
  intro fuel
  induction fuel with
  | zero => intro s _; cases s <;> rfl
  | succ n ih =>
    intro s h
    cases s with
    | nil => rfl
    | cons c rest =>
      rw [containsSub, Bool.or_eq_false_iff] at h
      simp [replaceFuel, h.1, ih rest h.2]

/-- String-level form of `replaceFuel_of_not_contains`. -/
theorem pyReplace_of_not_contains (s needle val : String)
    (h : strContains s needle = false) : pyReplace s needle val = s := by
  cases s with
  | mk d =>
    unfold pyReplace
    rw [replaceFuel_of_not_contains needle.data val.data d.length d h]

/-- A template containing no placeholder of any mapped variable is returned
unchanged by the renderer. -/
theorem fillTemplate_of_no_placeholder :
    ∀ (vars : List (String × String)) (t : String),
      (∀ kv ∈ vars, strContains t (placeholderDouble kv.1) = false ∧
        strContains t (placeholderSingle kv.1) = false) →
      fillTemplate t vars = t := by
  intro vars
  induction vars with
  | nil => intro t _; rfl
  | cons kv rest ih =>
    intro t h
    have hd := h kv (by simp)
    have step : pyReplace (pyReplace t (placeholderDouble kv.1) kv.2)
        (placeholderSingle kv.1) kv.2 = t := by
      rw [pyReplace_of_not_contains t _ _ hd.1, pyReplace_of_not_contains t _ _ hd.2]
    have tail := ih t (fun kv2 h2 => h kv2 (List.mem_cons_of_mem _ h2))
    simp only [fillTemplate, List.foldl_cons, step]
    exact tail

/-- The fueled splitter never produces an empty piece list. -/
theorem splitFuel_ne_nil (needle : List Char) :
    ∀ (fuel : Nat) (s : List Char), splitFuel needle fuel s ≠ [] := by
  intro fuel
  induction fuel with
  | zero => intro s; cases s <;> simp [splitFuel]
  | succ n ih =>
    intro s
    cases s with
    | nil => simp [splitFuel]
    | cons c rest =>
      by_cases hc : (needle.isPrefixOf (c :: rest) && !needle.isEmpty) = true
      · simp [splitFuel, hc]
      · simp only [splitFuel, hc, if_false, Bool.false_eq_true]
        rcases hsp : splitFuel needle n rest with _ | ⟨p, ps⟩ <;> simp

/-- Characterization of a single `str.replace` call: it equals splitting the
input on the needle (occurrences located in the input only) and joining the
pieces with the replacement value, which is inserted blindly — within one
call, replacement text is never rescanned. -/
theorem replaceFuel_eq_joinWith (needle val : List Char) :
    ∀ (fuel : Nat) (s : List Char),
      replaceFuel needle val fuel s = joinWith val (splitFuel needle fuel s) := by
  intro fuel
  induction fuel with
  | zero => intro s; cases s <;> rfl
  | succ n ih =>
    intro s
    cases s with
    | nil => rfl
    | cons c rest =>
      by_cases hc : (needle.isPrefixOf (c :: rest) && !needle.isEmpty) = true
      · simp only [replaceFuel, splitFuel, hc, if_true]
        rw [ih]
        rcases hsp : splitFuel needle n (List.drop needle.length (c :: rest)) with _ | ⟨p, ps⟩
        · exact absurd hsp (splitFuel_ne_nil needle n _)
        · simp [joinWith]
      · simp only [replaceFuel, splitFuel, hc, if_false, Bool.false_eq_true]
        rw [ih]
        rcases hsp : splitFuel needle n rest with _ | ⟨p, ps⟩
        · exact absurd hsp (splitFuel_ne_nil needle n rest)
        · cases ps with
          | nil => simp [joinWith]
          | cons q qs => simp [joinWith]

/-- C2.  The source declares and dispatches a `list_bedrock_prompts` tool,
but the dispatched name `list_prompts` is not bound at module level (the
`def` header of the listing function is missing; its body survives as dead
code after the `return` of `parse_model_response`).  Every call therefore
raises `NameError` and ends as a `{success: false}` envelope even when the
catalog listing would succeed, while the dead body — had it kept its
header — would return the `{success: true}` envelope with the summaries and
pagination token.  This contradicts the claimed behaviour of the exposed
`listPrompts` operation; the claim (and the tool declaration in the source)
describe the evident intent, so the code is in a bug state. -/
theorem c2_list_prompts_undefined :
    call_tool_list_bedrock_prompts
        (Except.ok [("promptSummaries", PyVal.list []), ("nextToken", PyVal.str "t")]) =
      Envelope.mk false (some "name list_prompts is not defined") ∧
    (list_prompts_dead_body
        (Except.ok [("promptSummaries", PyVal.list []), ("nextToken", PyVal.str "t")])).success =
      true ∧
    module_function_names.contains "list_prompts" = false :=
  ⟨rfl, rfl, rfl⟩

/-- C3.  Response-parsing totality fails for the claude family: the claude
parser returns `""` when `"content"` is absent (the defaulted `[{}]` takes
over) but raises `IndexError` on `{"content": []}` — the `[0]` index of the
empty list — contrary to the graceful-degradation contract; every other
family's parser guards the empty-array case and returns `""` for both the
absent and the empty shape. -/
theorem c3_parse_empty_content_raises :
    parse_response_claude [] = Except.ok (PyVal.str "") ∧
    parse_response_claude [("content", PyVal.list [])] = Except.error "IndexError" ∧
    parse_response_titan [] = Except.ok (PyVal.str "") ∧
    parse_response_titan [("results", PyVal.list [])] = Except.ok (PyVal.str "") ∧
    parse_response_llama [] = Except.ok (PyVal.str "") ∧
    parse_response_mistral [] = Except.ok (PyVal.str "") ∧
    parse_response_mistral [("outputs", PyVal.list [])] = Except.ok (PyVal.str "") ∧
    parse_response_cohere [] = Except.ok (PyVal.str "") ∧
    parse_response_cohere [("generations", PyVal.list [])] = Except.ok (PyVal.str "") ∧
    parse_response_ai21 [] = Except.ok (PyVal.str "") ∧
    parse_response_ai21 [("completions", PyVal.list [])] = Except.ok (PyVal.str "") :=
  ⟨rfl, rfl, rfl, rfl, rfl, rfl, rfl, rfl, rfl, rfl, rfl⟩

/-- C6.  The classifier is total and deterministic (it is a function), and
agrees on every identifier with the spec-worded classifier: first family of
the fixed priority order (claude, titan, llama, mistral, cohere, ai21) one
of whose case-insensitive markers occurs in the identifier, `"unknown"`
when none does; in particular an identifier containing `claude` or
`anthropic` case-insensitively is classified `"claude"`, and an identifier
containing no marker at all is classified `"unknown"`. -/
theorem c6_classifier_matches_spec :
    ∀ model_id : String,
      get_model_type model_id = classify_spec model_id ∧
      ((strContains (pyLower model_id) "claude" ||
          strContains (pyLower model_id) "anthropic") = true →
        get_model_type model_id = "claude") ∧
      ((familyMarkers.all fun fm =>
          fm.2.all fun mk => !strContains (pyLower model_id) mk) = true →
        get_model_type model_id = "unknown") := by
  intro model_id
  refine ⟨?_, ?_, ?_⟩
  · simp only [get_model_type, classify_spec, familyMarkers, firstMatchingFamily,
      List.any_cons, List.any_nil, Bool.or_false]
  · intro h
    simp [get_model_type, h]
  · intro h
    simp only [familyMarkers, List.all_cons, List.all_nil, Bool.and_true,
      Bool.and_eq_true, Bool.not_eq_true'] at h
    obtain ⟨⟨h1, h2⟩, h3, ⟨h4, h5⟩, h6, h7, h8, h9⟩ := h
    simp [get_model_type, h1, h2, h3, h4, h5, h6, h7, h8, h9]

/-- Closed instances of `c6_classifier_matches_spec`, discharging its
hypotheses on concrete identifiers. -/
theorem c6_classifier_matches_spec_witness :
    get_model_type "Anthropic.Claude-3" = "claude" ∧ get_model_type "gpt-4" = "unknown" :=
  ⟨(c6_classifier_matches_spec "Anthropic.Claude-3").2.1 (by decide),
   (c6_classifier_matches_spec "gpt-4").2.2 (by decide)⟩

/-- C7 counterexample.  A replacement value containing a placeholder-shaped
substring does not pass through verbatim: substituting `a ↦ "x{a}y"` into
`"{{a}}"` first yields `"x{a}y"`, whose just-introduced `"{a}"` is then
re-substituted by the same variable's single-brace pass, giving
`"xx{a}yy"`; and with `a ↦ "{b}"`, `b ↦ "X"` on `"{a}"`, the text
introduced for `a` is re-substituted by the later variable `b`, giving
`"X"`. -/
theorem c7_rescan_counterexample :
    fillTemplate "\x7b\x7ba\x7d\x7d" [("a", "x\x7ba\x7dy")] = "xx\x7ba\x7dyy" ∧
    fillTemplate "\x7b\x7ba\x7d\x7d" [("a", "x\x7ba\x7dy")] ≠ "x\x7ba\x7dy" ∧
    fillTemplate "\x7ba\x7d" [("a", "\x7bb\x7d"), ("b", "X")] = "X" :=
  ⟨by decide, by decide, by decide⟩

/-- C7 amended.  Within one `str.replace` call text introduced by the
replacement is never rescanned — each call equals splitting the input on
the needle and joining with the value — but the renderer runs two such
calls per variable (double-brace then single-brace form), each over the
whole accumulated string, so text introduced by an earlier call can be
re-substituted by the same variable's single-brace pass or by a later
variable's passes, and a replacement value containing a placeholder-shaped
substring is not passed through verbatim. -/
theorem c7_single_pass_within_call_amended :
    (∀ (needle val : List Char) (fuel : Nat) (s : List Char),
      replaceFuel needle val fuel s = joinWith val (splitFuel needle fuel s)) ∧
    fillTemplate "\x7b\x7ba\x7d\x7d" [("a", "x\x7ba\x7dy")] = "xx\x7ba\x7dyy" ∧
    fillTemplate "\x7ba\x7d" [("a", "\x7bb\x7d"), ("b", "X")] = "X" :=
  ⟨fun needle val fuel s => replaceFuel_eq_joinWith needle val fuel s, by decide, by decide⟩

/-- C9.  The renderer's reference behaviour: the documented example renders
to `"Hi Ann, age 5"`; a placeholder whose name is absent from the mapping
is left verbatim (second conjunct, and in general any template in which no
mapped placeholder occurs is returned unchanged); the renderer is a total
function on string-valued mappings, so it never raises. -/
theorem c9_render_reference_behavior :
    fillTemplate "Hi \x7b\x7bname\x7d\x7d, age \x7bage\x7d" [("name", "Ann"), ("age", "5")] =
      "Hi Ann, age 5" ∧
    fillTemplate "Hi \x7b\x7bname\x7d\x7d, age \x7bage\x7d" [("name", "Ann")] =
      "Hi Ann, age \x7bage\x7d" ∧
    ∀ (t : String) (vars : List (String × String)),
      (∀ kv ∈ vars, strContains t (placeholderDouble kv.1) = false ∧
        strContains t (placeholderSingle kv.1) = false) →
      fillTemplate t vars = t :=
  ⟨by decide, by decide, fun t vars h => fillTemplate_of_no_placeholder vars t h⟩

/-- Closed instance of `c9_render_reference_behavior`: a template mentioning
none of the mapped variables is returned unchanged. -/
theorem c9_render_reference_behavior_witness :
    fillTemplate "Answer: \x7b\x7bq\x7d\x7d" [("nope", "x")] = "Answer: \x7b\x7bq\x7d\x7d" :=
  c9_render_reference_behavior.2.2 "Answer: \x7b\x7bq\x7d\x7d" [("nope", "x")] (by decide)

/-- Counting a report list grows by one at an entry carrying the index. -/
theorem countIdx_cons (i : Nat) (e : BatchEntry) (l : List BatchEntry) :
    countIdx i (e :: l) = (if (e.index == some i) = true then 1 else 0) + countIdx i l := by
  by_cases h : (e.index == some i) = true <;>
    simp [countIdx, List.filter_cons, h, Nat.add_comm]

/-- No task position is completed in an empty outcome list. -/
theorem completedAt_nil (k : Nat) : completedAt [] k = false := by
  cases k <;> rfl

/-- Position zero of a nonempty outcome list is completed according to its
head. -/
theorem completedAt_cons_zero (o : FutureOutcome) (outs : List FutureOutcome) :
    completedAt (o :: outs) 0 = isCompleted o := by
  cases o <;> rfl

/-- Later positions of a nonempty outcome list look past the head. -/
theorem completedAt_cons_succ (o : FutureOutcome) (outs : List FutureOutcome) (k : Nat) :
    completedAt (o :: outs) (k + 1) = completedAt outs k := by
  simp [completedAt, List.drop_succ_cons]

/-- One collection step contributes one indexed entry exactly when the head
future completed and the index queried is the head's. -/
theorem collectResults_count_cons (i i0 : Nat) (o : FutureOutcome) (rest : List FutureOutcome) :
    countIdx i (collectResults i0 (o :: rest)).1 + countIdx i (collectResults i0 (o :: rest)).2 =
      (if i = i0 ∧ isCompleted o = true then 1 else 0) +
        (countIdx i (collectResults (i0 + 1) rest).1 +
          countIdx i (collectResults (i0 + 1) rest).2) := by
  rcases o with s | _
  · cases s with
    | true =>
      simp only [collectResults, countIdx_cons, isCompleted]
      by_cases h : i = i0
      · subst h
        simp [Nat.add_assoc]
      · have hbeq : ((some i0 : Option Nat) == some i) = false := by
          rw [beq_eq_false_iff_ne]
          intro hcontra
          exact h (Option.some.inj hcontra).symm
        simp [hbeq, h]
    | false =>
      simp only [collectResults, countIdx_cons, isCompleted]
      by_cases h : i = i0
      · subst h
        simp [Nat.add_assoc]
        all_goals omega
      · have hbeq : ((some i0 : Option Nat) == some i) = false := by
          rw [beq_eq_false_iff_ne]
          intro hcontra
          exact h (Option.some.inj hcontra).symm
        simp [hbeq, h]
  · simp only [collectResults, countIdx_cons, isCompleted]
    simp

/-- Across the two report lists together, a queried index `i` is carried by
exactly one entry when the task at position `i - i0` completed, and by none
otherwise — in particular a position whose future raised is carried by no
entry at all. -/
theorem collectResults_count (i : Nat) :
    ∀ (outs : List FutureOutcome) (i0 : Nat),
      countIdx i (collectResults i0 outs).1 + countIdx i (collectResults i0 outs).2 =
        if i0 ≤ i ∧ completedAt outs (i - i0) = true then 1 else 0 := by
  intro outs
  induction outs with
  | nil =>
    intro i0
    simp [collectResults, countIdx, completedAt_nil]
  | cons o rest ih =>
    intro i0
    rw [collectResults_count_cons i i0 o rest, ih (i0 + 1)]
    rcases Nat.lt_trichotomy i i0 with hlt | heq | hgt
    · rw [if_neg (fun h => absurd h.1 (by omega)), if_neg (fun h => absurd h.1 (by omega)),
        if_neg (fun h => absurd h.1 (by omega))]
    · subst heq
      have hz : i - i = 0 := by omega
      rw [hz, completedAt_cons_zero]
      by_cases hco : isCompleted o = true
      · rw [if_pos ⟨rfl, hco⟩, if_neg (fun h => absurd h.1 (by omega)),
          if_pos ⟨Nat.le_refl i, hco⟩]
      · rw [if_neg (fun h => hco h.2), if_neg (fun h => absurd h.1 (by omega)),
          if_neg (fun h => hco h.2)]
    · have hs : i - i0 = (i - (i0 + 1)) + 1 := by omega
      rw [hs, completedAt_cons_succ]
      by_cases hco : completedAt rest (i - (i0 + 1)) = true
      · rw [if_neg (fun h => absurd h.1 (by omega)), if_pos ⟨by omega, hco⟩,
          if_pos ⟨by omega, hco⟩]
      · rw [if_neg (fun h => absurd h.1 (by omega)), if_neg (fun h => hco h.2),
          if_neg (fun h => hco h.2)]

/-- When no future raised, position `i` is completed exactly when it is in
range. -/
theorem completedAt_of_no_raised :
    ∀ (outs : List FutureOutcome), (∀ o ∈ outs, o ≠ FutureOutcome.raised) →
      ∀ i : Nat, completedAt outs i = decide (i < outs.length) := by
  intro outs
  induction outs with
  | nil => intro _ i; simp [completedAt_nil]
  | cons o rest ih =>
    intro h i
    cases i with
    | zero =>
      have ho := h o (by simp)
      rcases o with s | _
      · simp [completedAt_cons_zero, isCompleted]
      · exact absurd rfl ho
    | succ k =>
      rw [completedAt_cons_succ, ih (fun o2 h2 => h o2 (by simp [h2])) k]
      rw [decide_eq_decide]
      simp

/-- C1 amended.  Batch index integrity holds for completed tasks only:
across the union of the successes and failures lists, index `i` is carried
by exactly one entry when task `i`'s future settled by returning (in
particular, whenever no task timed out the indices carried are exactly
`0..N-1`, once each), but a task whose `future.result` call raises — the
per-task timeout — contributes a failure entry that carries no index, so
its index appears in neither list. -/
theorem c1_batch_index_integrity_amended :
    ∀ outs : List FutureOutcome,
      (∀ i : Nat,
        countIdx i (collectResults 0 outs).1 + countIdx i (collectResults 0 outs).2 =
          if completedAt outs i = true then 1 else 0) ∧
      ((∀ o ∈ outs, o ≠ FutureOutcome.raised) →
        ∀ i : Nat,
          countIdx i (collectResults 0 outs).1 + countIdx i (collectResults 0 outs).2 =
            if i < outs.length then 1 else 0) := by
  intro outs
  constructor
  · intro i
    have h := collectResults_count i outs 0
    simpa using h
  · intro h i
    have h2 := collectResults_count i outs 0
    rw [completedAt_of_no_raised outs h] at h2
    simpa using h2

/-- Closed instance of `c1_batch_index_integrity_amended` on a concrete
no-timeout batch. -/
theorem c1_batch_index_integrity_witness :
    countIdx 1 (collectResults 0 [FutureOutcome.completed true, FutureOutcome.completed false]).1 +
      countIdx 1 (collectResults 0 [FutureOutcome.completed true, FutureOutcome.completed false]).2 =
      1 := by
  have h :=
    (c1_batch_index_integrity_amended
      [FutureOutcome.completed true, FutureOutcome.completed false]).2 (by decide) 1
  simpa using h

/-- C1 counterexample.  A single submitted task whose future raises (the
per-task timeout) is reported as the failure entry `{index: none}`: index
`0` — the only submitted index — appears in neither the successes nor the
failures list, contradicting the claimed index integrity and the claim
that a timed-out task's failure entry carries its index. -/
theorem c1_timeout_drops_index_counterexample :
    collectResults 0 [FutureOutcome.raised] = ([], [BatchEntry.mk Option.none false]) ∧
    countIdx 0 (collectResults 0 [FutureOutcome.raised]).1 +
      countIdx 0 (collectResults 0 [FutureOutcome.raised]).2 = 0 := by
  exact ⟨rfl, rfl⟩

/-- Every index carried by a report list of `collectResults i0` is at least
`i0`. -/
theorem collectResults_indices_ge :
    ∀ (outs : List FutureOutcome) (i0 : Nat),
      (∀ x ∈ entryIndices (collectResults i0 outs).1, i0 ≤ x) ∧
      (∀ x ∈ entryIndices (collectResults i0 outs).2, i0 ≤ x) := by
  intro outs
  induction outs with
  | nil => intro i0; simp [collectResults, entryIndices]
  | cons o rest ih =>
    intro i0
    have IH := ih (i0 + 1)
    rcases o with s | _
    · cases s with
      | true =>
        simp only [collectResults, entryIndices, List.filterMap_cons]
        constructor
        · intro x hx
          simp only [List.mem_cons] at hx
          rcases hx with h | h
          · omega
          · have := IH.1 x h
            omega
        · intro x hx
          have := IH.2 x hx
          omega
      | false =>
        simp only [collectResults, entryIndices, List.filterMap_cons]
        constructor
        · intro x hx
          have := IH.1 x hx
          omega
        · intro x hx
          simp only [List.mem_cons] at hx
          rcases hx with h | h
          · omega
          · have := IH.2 x h
            omega
    · simp only [collectResults, entryIndices, List.filterMap_cons]
      constructor
      · intro x hx
        have := IH.1 x hx
        omega
      · intro x hx
        have := IH.2 x hx
        omega

/-- The indices carried by each report list of `collectResults` are
strictly increasing. -/
theorem collectResults_indices_chain :
    ∀ (outs : List FutureOutcome) (i0 : Nat),
      List.Chain' (· < ·) (entryIndices (collectResults i0 outs).1) ∧
      List.Chain' (· < ·) (entryIndices (collectResults i0 outs).2) := by
  intro outs
  induction outs with
  | nil => intro i0; simp [collectResults, entryIndices]
  | cons o rest ih =>
    intro i0
    have IH := ih (i0 + 1)
    have HB := collectResults_indices_ge rest (i0 + 1)
    rcases o with s | _
    · cases s with
      | true =>
        simp only [collectResults, entryIndices, List.filterMap_cons]
        refine ⟨?_, IH.2⟩
        rw [List.chain'_cons']
        refine ⟨?_, IH.1⟩
        intro b hb
        have hmem := List.mem_of_mem_head? hb
        have := HB.1 b hmem
        omega
      | false =>
        simp only [collectResults, entryIndices, List.filterMap_cons]
        refine ⟨IH.1, ?_⟩
        rw [List.chain'_cons']
        refine ⟨?_, IH.2⟩
        intro b hb
        have hmem := List.mem_of_mem_head? hb
        have := HB.2 b hmem
        omega
    · simp only [collectResults, entryIndices, List.filterMap_cons]
      exact ⟨IH.1, IH.2⟩

/-- C10.  In every report the batch orchestrator returns, the indices
carried by the successes list are strictly increasing, and so are the
indices carried by the failures list: results are collected by iterating
the futures in submission order, so completion order never influences
report order. -/
theorem c10_batch_report_index_order :
    ∀ (cat : Except String PyDict) (tasks : List BatchTask),
      List.Chain' (· < ·) (entryIndices (batch_invoke_prompt_model cat tasks).results) ∧
      List.Chain' (· < ·) (entryIndices (batch_invoke_prompt_model cat tasks).errors) := by
  intro cat tasks
  exact collectResults_indices_chain (tasks.map (taskOutcome cat)) 0

/-- When the shared catalog lookup fails, every task of the batch fails
individually and is collected, with its index, into the errors list. -/
theorem collectResults_all_failed (e : String) :
    ∀ (tasks : List BatchTask) (i0 : Nat), (∀ t ∈ tasks, t.timesOut = false) →
      collectResults i0 (tasks.map (taskOutcome (Except.error e))) =
        ([], (List.range' i0 tasks.length).map (fun i => BatchEntry.mk (some i) false)) := by
  intro tasks
  induction tasks with
  | nil => intro i0 _; rfl
  | cons t rest ih =>
    intro i0 h
    have ht : t.timesOut = false := h t (by simp)
    have hout : taskOutcome (Except.error e) t = FutureOutcome.completed false := by
      simp [taskOutcome, ht, invoke_prompt_model]
    rw [List.map_cons, hout]
    simp only [collectResults, ih (i0 + 1) (fun t2 h2 => h t2 (by simp [h2]))]
    simp [List.range']

/-- C5 counterexample.  A failing catalog lookup for the shared prompt id
does not produce a wholesale failure envelope: with one submitted task and
`get_prompt_details` failing, the orchestrator still returns
`{success: true}`, with the failure recorded against index 0 inside the
report, contradicting the claimed "if" direction of the wholesale-failure
condition. -/
theorem c5_wholesale_counterexample :
    (batch_invoke_prompt_model (Except.error "AccessDenied")
        [BatchTask.mk (Except.ok []) [] false]).success = true ∧
    (batch_invoke_prompt_model (Except.error "AccessDenied")
        [BatchTask.mk (Except.ok []) [] false]).results = [] ∧
    (batch_invoke_prompt_model (Except.error "AccessDenied")
        [BatchTask.mk (Except.ok []) [] false]).errors = [BatchEntry.mk (some 0) false] :=
  ⟨rfl, rfl, rfl⟩

/-- C5 amended.  The orchestrator performs no initial catalog lookup and
never fails wholesale: its report envelope always carries `success: true`
(the orchestration scaffolding raises nothing), and a failing catalog
lookup for the shared prompt id — encountered separately inside each
task's `invoke_prompt` call — is recorded against every task's index
inside the report (absent timeouts: an empty successes list and one
indexed failure entry per task, indices `0..N-1` in order). -/
theorem c5_no_wholesale_failure_amended :
    (∀ (cat : Except String PyDict) (tasks : List BatchTask),
      (batch_invoke_prompt_model cat tasks).success = true) ∧
    (∀ (e : String) (tasks : List BatchTask), (∀ t ∈ tasks, t.timesOut = false) →
      (batch_invoke_prompt_model (Except.error e) tasks).results = [] ∧
      (batch_invoke_prompt_model (Except.error e) tasks).errors =
        (List.range tasks.length).map (fun i => BatchEntry.mk (some i) false)) := by
  constructor
  · intro cat tasks
    rfl
  · intro e tasks h
    have hc := collectResults_all_failed e tasks 0 h
    constructor
    · simp [batch_invoke_prompt_model, hc]
    · simp [batch_invoke_prompt_model, hc, List.range_eq_range']

/-- Closed instance of `c5_no_wholesale_failure_amended` on a concrete
one-task batch with a failing catalog. -/
theorem c5_no_wholesale_failure_witness :
    (batch_invoke_prompt_model (Except.error "Throttling")
        [BatchTask.mk (Except.ok []) [("q", "hi")] false]).errors =
      [BatchEntry.mk (some 0) false] := by
  have h :=
    c5_no_wholesale_failure_amended.2 "Throttling"
      [BatchTask.mk (Except.ok []) [("q", "hi")] false] (by decide)
  simpa [List.range_succ] using h.2

/-- A prefix of events each of which steps without raising lets the loop
reach a malformed chunk, whose decode error then aborts the whole loop. -/
theorem processStream_abort (mt m : String) (post : List StreamEvent) :
    ∀ pre : List StreamEvent, (∀ e ∈ pre, (eventStep mt e).isOk = true) →
      processStream mt (pre ++ StreamEvent.chunk (Except.error m) :: post) =
        Except.error m := by
  intro pre
  induction pre with
  | nil => intro _; rfl
  | cons e pre ih =>
    intro h
    have he : (eventStep mt e).isOk = true := h e (by simp)
    have hrest := ih (fun e2 h2 => h e2 (by simp [h2]))
    cases hstep : eventStep mt e with
    | error msg =>
      rw [hstep] at he
      simp [Except.isOk, Except.toBool] at he
    | ok c =>
      simp [processStream, hstep, hrest, List.cons_append]

/-- C4 counterexample.  A stream of three claude events whose middle event
is undecodable is not processed per-event: the whole operation returns the
failure envelope — no partial text, no chunks — while the same stream
without the malformed event returns `{success: true}` accumulating
`"AB"`.  This contradicts the claimed skip-and-continue behaviour. -/
theorem c4_malformed_event_counterexample :
    invoke_prompt_stream_events "anthropic.claude-v2"
        [claudeDelta "A", StreamEvent.chunk (Except.error "JSONDecodeError"), claudeDelta "B"] =
      StreamResult.mk false Option.none Option.none Option.none (some "JSONDecodeError") ∧
    (invoke_prompt_stream_events "anthropic.claude-v2"
        [claudeDelta "A", StreamEvent.chunk (Except.error "JSONDecodeError"),
          claudeDelta "B"]).success = false ∧
    invoke_prompt_stream_events "anthropic.claude-v2" [claudeDelta "A", claudeDelta "B"] =
      StreamResult.mk true (some "AB") (some ["A", "B"]) (some 2) Option.none :=
  ⟨rfl, rfl, rfl⟩

/-- C4 amended.  One malformed (undecodable) event aborts the whole stream:
for every model id and every event sequence whose earlier events all step
without raising, the first malformed chunk's decode error propagates out of
the event loop, and the operation returns the `{success: false}` envelope,
discarding all accumulated text — rather than skipping the event and
succeeding with the remaining text. -/
theorem c4_malformed_event_aborts_amended :
    ∀ (model_id m : String) (pre post : List StreamEvent),
      (∀ e ∈ pre, (eventStep (get_model_type model_id) e).isOk = true) →
      invoke_prompt_stream_events model_id
          (pre ++ StreamEvent.chunk (Except.error m) :: post) =
        StreamResult.mk false Option.none Option.none Option.none (some m) := by
  intro model_id m pre post h
  unfold invoke_prompt_stream_events
  rw [processStream_abort (get_model_type model_id) m post pre h]

/-- Closed instance of `c4_malformed_event_aborts_amended` on a concrete
titan stream. -/
theorem c4_malformed_event_aborts_witness :
    invoke_prompt_stream_events "amazon.titan-text-express"
        [StreamEvent.noChunk, StreamEvent.chunk (Except.error "bad")] =
      StreamResult.mk false Option.none Option.none Option.none (some "bad") :=
  c4_malformed_event_aborts_amended "amazon.titan-text-express" "bad"
    [StreamEvent.noChunk] [] (by decide)

/-- C8 counterexample.  Selection does not fail only on an empty variant
list: a one-element list whose sole variant is an empty mapping (falsy in
Python, so `if not variant:` rejects it) also yields the NoVariantFound
error, contradicting the claimed "only if" direction. -/
theorem c8_empty_variant_counterexample :
    variantOrError [] [([] : PyDict)] = Except.error "No variant found in prompt" ∧
    ([([] : PyDict)] : List PyDict).length = 1 :=
  ⟨rfl, rfl⟩

/-- Selection yields nothing exactly when the variant list is empty: a
truthy name match is kept, and both fallback branches take the head of the
list. -/
theorem selectVariant_eq_none_iff (pd : PyDict) (vs : List PyDict) :
    selectVariant pd vs = Option.none ↔ vs = [] := by
  unfold selectVariant
  cases hf : vs.find? (variantNameMatches pd) with
  | none => simp [List.head?_eq_none_iff]
  | some v =>
    have hne : vs ≠ [] := by
      intro h
      subst h
      simp at hf
    by_cases hv : v.isEmpty
    · simp [hv, List.head?_eq_none_iff]
    · simp [hv, hne]

/-- The NoVariantFound error is returned exactly when the selected variant
is missing or is an empty (falsy) mapping. -/
theorem variantOrError_eq_error_iff (pd : PyDict) (vs : List PyDict) :
    variantOrError pd vs = Except.error "No variant found in prompt" ↔
      selectVariant pd vs = Option.none ∨ selectVariant pd vs = some [] := by
  cases hsel : selectVariant pd vs with
  | none =>
    unfold variantOrError
    rw [hsel]
    simp
  | some v =>
    unfold variantOrError
    rw [hsel]
    by_cases hv : v.isEmpty
    · have hve : v = [] := by simpa using hv
      subst hve
      simp
    · have hv2 : v ≠ [] := by simpa using hv
      simp [hv, hv2]

/-- C8 amended.  The invoker keeps the first variant whose name equals the
declared default name provided that variant is truthy (a nonempty
mapping); otherwise — no name match, or the name-matched variant is an
empty mapping — it falls back to the first variant of the sequence; and it
fails with the NoVariantFound error iff the variant finally selected is
missing or falsy: the list is empty, or the selected variant is an empty
mapping. -/
theorem c8_variant_selection_amended :
    ∀ (pd : PyDict) (vs : List PyDict),
      (variantOrError pd vs = Except.error "No variant found in prompt" ↔
        vs = [] ∨ selectVariant pd vs = some []) ∧
      (∀ v, vs.find? (variantNameMatches pd) = some v → v ≠ [] →
        selectVariant pd vs = some v) ∧
      (vs.find? (variantNameMatches pd) = some [] → selectVariant pd vs = vs.head?) ∧
      (vs.find? (variantNameMatches pd) = Option.none → selectVariant pd vs = vs.head?) := by
  intro pd vs
  refine ⟨?_, ?_, ?_, ?_⟩
  · rw [variantOrError_eq_error_iff, selectVariant_eq_none_iff]
  · intro v hf hv
    have hv2 : v.isEmpty = false := by simpa using hv
    unfold selectVariant
    rw [hf]
    simp [hv2]
  · intro hf
    unfold selectVariant
    rw [hf]
    simp
  · intro hf
    unfold selectVariant
    rw [hf]

/-- Closed instances of `c8_variant_selection_amended`: a truthy
name-matched variant is kept, and a falsy (empty-mapping) name match —
matched here because the declared default is `None` — falls back to the
first variant, as the source's `if not variant and variants:` does. -/
theorem c8_variant_selection_witness :
    selectVariant [("defaultVariant", PyVal.str "v2")]
        [[("name", PyVal.str "v1")], [("name", PyVal.str "v2")]] =
      some [("name", PyVal.str "v2")] ∧
    selectVariant [("defaultVariant", PyVal.none)]
        [[("name", PyVal.str "a")], ([] : PyDict)] =
      some [("name", PyVal.str "a")] :=
  ⟨(c8_variant_selection_amended [("defaultVariant", PyVal.str "v2")]
      [[("name", PyVal.str "v1")], [("name", PyVal.str "v2")]]).2.1
    [("name", PyVal.str "v2")] rfl (by simp),
   (c8_variant_selection_amended [("defaultVariant", PyVal.none)]
      [[("name", PyVal.str "a")], ([] : PyDict)]).2.2.1 rfl⟩

end BedrockSpec
